import Mathlib

/-!
Verification of the KalshiBot order-book / contract-scheduler / signal-engine
core, shallowly embedded from the Python source (`order_book.py`, `app.py`).

Conventions of the embedding:
* A Python `dict` mapping price to quantity is an association list
  `List (Int × Int)`; `setKey` replaces the value of an existing key in place
  and appends a fresh key at the end, `popKey` removes a key, `getQty` is
  `dict.get(price, 0)`.
* Timestamps are absolute microseconds (`Nat`), matching the microsecond
  resolution of Python `datetime`; differences are taken in `Int`.
* Float comparisons in the source compare exact ratios of integer
  microsecond differences against integer thresholds, so they are embedded
  as exact integer comparisons; the P&L ratio is embedded in `ℚ`.
-/

namespace KalshiBot

/-! ## Order book (`order_book.py`) -/

abbrev Book := List (Int × Int)

/-- Python `dict.get(price, 0)`. -/
def getQty (m : Book) (p : Int) : Int :=
  match m.find? (fun e => e.1 = p) with
  | some e => e.2
  | none => 0

/-- Python `dict[price] = q`: replace the entry if the key is present, else add it. -/
def setKey (m : Book) (p q : Int) : Book :=
  if m.any (fun e => decide (e.1 = p)) then
    m.map (fun e => if e.1 = p then (p, q) else e)
  else
    m ++ [(p, q)]

/-- Python `dict.pop(price, None)`: drop the key if present. -/
def popKey (m : Book) (p : Int) : Book :=
  m.filter (fun e => decide (e.1 ≠ p))

/-- Python `{price: qty for price, qty in pairs}` — later duplicates override. -/
def toDict (pairs : List (Int × Int)) : Book :=
  pairs.foldl (fun acc e => setKey acc e.1 e.2) []

structure OrderBook where
  marketTicker : String
  yes : Book
  no : Book
deriving DecidableEq

structure DeltaMsg where
  side : String
  price : Int
  delta : Int
deriving DecidableEq

/-- Embeds `OrderBook.apply_snapshot`: wholesale replacement of both maps. -/
def applySnapshot (b : OrderBook) (yesLevels noLevels : List (Int × Int)) : OrderBook :=
  { b with yes := toDict yesLevels, no := toDict noLevels }

/-- Embeds `OrderBook.apply_delta`. The source selects the map with
`side = self.yes if msg["side"] == "yes" else self.no`: every side value
other than `"yes"` mutates the `no` map. -/
def applyDelta (b : OrderBook) (msg : DeltaMsg) : OrderBook :=
  if msg.side = "yes" then
    let newQty := getQty b.yes msg.price + msg.delta
    if newQty ≤ 0 then { b with yes := popKey b.yes msg.price }
    else { b with yes := setKey b.yes msg.price newQty }
  else
    let newQty := getQty b.no msg.price + msg.delta
    if newQty ≤ 0 then { b with no := popKey b.no msg.price }
    else { b with no := setKey b.no msg.price newQty }

/-- Embeds `OrderBook.best_bid`: `max(book.keys()) if book else None`. -/
def bestBid (b : OrderBook) (side : String) : Option Int :=
  let book := if side = "yes" then b.yes else b.no
  (book.map Prod.fst).max?

/-- Embeds `OrderBook.best_ask`: `(100 - max(other.keys())) if other else None`,
where `other` is the opposite side's map. -/
def bestAsk (b : OrderBook) (side : String) : Option Int :=
  let other := if side = "yes" then b.no else b.yes
  ((other.map Prod.fst).max?).map (fun m => 100 - m)

/-- All quantities in a map are strictly positive. -/
def allPos (m : Book) : Prop := ∀ e ∈ m, 0 < e.2

instance (m : Book) : Decidable (allPos m) := by
  unfold allPos; infer_instance

/-- Both maps of the book hold only positive quantities. -/
def bookPos (b : OrderBook) : Prop := allPos b.yes ∧ allPos b.no

/-! ## Contract scheduler (`BTC15Frame._compute`, `BTC15Frame._roll`)

A point in time is a `Nat` of microseconds since the epoch, the resolution
of Python `datetime`.  `now.replace(minute=nm, second=0, microsecond=0)`
is `now - now % usecPerHour + nm * usecPerMin`, and adding
`timedelta(hours=1)` is adding `usecPerHour`; the civil calendar fields
used by `strftime` are recovered with the standard days-to-civil
conversion. -/

def usecPerMin : Nat := 60000000

def usecPerHour : Nat := 3600000000

def usecPerDay : Nat := 86400000000

def minuteOfTime (t : Nat) : Nat := t / usecPerMin % 60

def hourOfTime (t : Nat) : Nat := t / usecPerHour % 24

/-- Days since 1970-01-01 to proleptic Gregorian `(year, month, day)`. -/
def civilFromDays (days : Nat) : Nat × Nat × Nat :=
  let z := days + 719468
  let era := z / 146097
  let doe := z % 146097
  let yoe := (doe - doe / 1460 + doe / 36524 - doe / 146096) / 365
  let y := yoe + era * 400
  let doy := doe - (365 * yoe + yoe / 4 - yoe / 100)
  let mp := (5 * doy + 2) / 153
  let d := doy - (153 * mp + 2) / 5 + 1
  let m := if mp < 10 then mp + 3 else mp - 9
  (if m ≤ 2 then y + 1 else y, m, d)

def yearOfTime (t : Nat) : Nat := (civilFromDays (t / usecPerDay)).1

def monthOfTime (t : Nat) : Nat := (civilFromDays (t / usecPerDay)).2.1

def dayOfTime (t : Nat) : Nat := (civilFromDays (t / usecPerDay)).2.2

/-- Month abbreviation of `strftime("%b").upper()` under the C locale. -/
def monthAbbrev : Nat → String
  | 1 => "JAN" | 2 => "FEB" | 3 => "MAR" | 4 => "APR"
  | 5 => "MAY" | 6 => "JUN" | 7 => "JUL" | 8 => "AUG"
  | 9 => "SEP" | 10 => "OCT" | 11 => "NOV" | 12 => "DEC"
  | _ => ""

/-- Two-digit zero-padded field, as in `strftime("%d")` etc. -/
def pad2 (n : Nat) : String :=
  if n < 10 then "0" ++ toString n else toString n

/-- The expiry computed by `BTC15Frame._compute(now)`:
`nm = ((now.minute // 15) + 1) * 15`; if `nm >= 60` the next hour boundary,
else `now.replace(minute=nm, second=0, microsecond=0)`. -/
def computeExpiry (now : Nat) : Nat :=
  let nm := (minuteOfTime now / 15 + 1) * 15
  if nm ≥ 60 then now - now % usecPerHour + usecPerHour
  else now - now % usecPerHour + nm * usecPerMin

/-- Embeds `BTC15Frame._compute(now)`: next 15-minute boundary strictly after
`now`, and the contract ticker string built from the expiry's fields. -/
def compute (now : Nat) : String × Nat :=
  let exp := computeExpiry now
  let dd := pad2 (dayOfTime exp)
  let mon := monthAbbrev (monthOfTime exp)
  let yy := pad2 (yearOfTime exp % 100)
  let hh := pad2 (hourOfTime exp)
  let mm := pad2 (minuteOfTime exp)
  ("KXBTC15M-" ++ yy ++ mon ++ dd ++ hh ++ mm ++ "-" ++ mm, exp)

/-- Embeds `BTC15Frame._roll`: `self._contract_start = expiry - timedelta(minutes=15)`. -/
def contractStartOf (expiry : Nat) : Nat := expiry - 15 * usecPerMin

/-- The identifier template as the spec words it:
`PREFIX-{YY}{MON}{DD}{HH}{MM}-{MM}` with the minute repeated. -/
def specTicker (exp : Nat) : String :=
  "KXBTC15M-" ++ pad2 (yearOfTime exp % 100) ++ monthAbbrev (monthOfTime exp) ++
    pad2 (dayOfTime exp) ++ pad2 (hourOfTime exp) ++ pad2 (minuteOfTime exp) ++
    "-" ++ pad2 (minuteOfTime exp)

/-! ## Signal engine (`BTC15Frame._check_events`)

State and configuration fields mirror the instance attributes of
`BTC15Frame` (`_in_trigger`, `_trigger_time`, `_entry_ask`, `_cycle_count`,
`_stop_loss_count`, `_stopped_out`) and the three spinbox values
(`_no_entry_after_var`, `_max_cycles_var`, `_sl_delay_var`).  Each call of
`_check_events` is one `checkEvents` step; rows inserted by
`_add_event_row` / `_add_milestone_row` are the emitted `Event`s. -/

structure SignalConfig where
  noEntryAfterMins : Nat
  maxCycles : Nat
  slDelaySecs : Nat
deriving DecidableEq

structure EngineState where
  inTrigger : Bool
  triggerTime : Option Nat
  entryAsk : Option Int
  cycleCount : Nat
  stopLossCount : Nat
  stoppedOut : Bool
deriving DecidableEq

/-- The engine state set up by the reset block of `BTC15Frame._roll`. -/
def initialEngineState : EngineState :=
  { inTrigger := false, triggerTime := none, entryAsk := none,
    cycleCount := 0, stopLossCount := 0, stoppedOut := false }

/-- Embeds `10.0 * (ask - 40) / 40` of `_add_event_row` — "always 40¢ entry per
strategy rule"; exact in `ℚ`. -/
def pnlOf (price : Int) : ℚ := 10 * ((price : ℚ) - 40) / 40

inductive Event where
  | entry (time : Nat) (ask : Int)
  | target (n : Nat) (time : Nat) (price : Int) (dwellUsec : Int) (pnl : ℚ)
  | stopLoss (time : Nat) (ask : Int) (pnl : ℚ)
  | milestone (time : Nat)
deriving DecidableEq

def Event.isMilestone : Event → Bool
  | .milestone _ => true
  | _ => false

def Event.isEntry : Event → Bool
  | .entry _ _ => true
  | _ => false

/-- One call of `BTC15Frame._check_events`, returning the updated engine
state and the rows it inserts, in insertion order.  `now`, `expiry` and
`cstart` are microsecond timestamps; float second comparisons of the
source are exact integer microsecond comparisons. -/
def checkEvents (cfg : SignalConfig) (st : EngineState) (book : OrderBook)
    (side : String) (now expiry cstart : Nat) : EngineState × List Event :=
  if st.stoppedOut then (st, [])
  else
    match bestAsk book side with
    | none => (st, [])
    | some ask =>
      let bid := bestBid book side
      if !st.inTrigger then
        if (expiry : Int) - (now : Int) < 30 * 1000000 then (st, [])
        else if cfg.noEntryAfterMins > 0 ∧
            60000000 * (cfg.noEntryAfterMins : Int) ≤ (now : Int) - (cstart : Int) then
          (st, [])
        else if ask ≤ 40 then
          ({ st with inTrigger := true, triggerTime := some now, entryAsk := some ask },
           [Event.entry now ask])
        else (st, [])
      else
        if ask ≤ 10 then
          let elapsed : Int :=
            match st.triggerTime with
            | some tt => (now : Int) - (tt : Int)
            | none => 999 * 1000000
          if cfg.slDelaySecs > 0 ∧ elapsed < 1000000 * (cfg.slDelaySecs : Int) then
            (st, [])
          else
            ({ st with stopLossCount := st.stopLossCount + 1, inTrigger := false,
                       triggerTime := none, stoppedOut := true },
             [Event.stopLoss now ask (pnlOf ask)])
        else
          match bid with
          | some b =>
            if 45 ≤ b then
              let secs : Int :=
                match st.triggerTime with
                | some tt => (now : Int) - (tt : Int)
                | none => 0
              let fill :=
                if secs < 2 * 1000000 then (st, ([] : List Event))
                else
                  let st1 := { st with cycleCount := st.cycleCount + 1,
                                       inTrigger := false, triggerTime := none }
                  (st1, [Event.target st1.cycleCount now b secs (pnlOf b)])
              let evs :=
                if fill.1.cycleCount = 4 then fill.2 ++ [Event.milestone now] else fill.2
              let st2 :=
                if cfg.maxCycles > 0 ∧ cfg.maxCycles ≤ fill.1.cycleCount then
                  { fill.1 with stoppedOut := true }
                else fill.1
              (st2, evs)
            else (st, [])
          | none => (st, [])

/-- One queued book update handled by `_poll`: the book state after the
snapshot/delta was applied, and the wall-clock instant of the
`_check_events` call that follows it. -/
structure BookUpdate where
  book : OrderBook
  now : Nat

/-- The engine run over a finite sequence of book updates within one
contract (fixed `expiry` and `cstart`), concatenating emitted events. -/
def runEngine (cfg : SignalConfig) (side : String) (expiry cstart : Nat) :
    List BookUpdate → EngineState → EngineState × List Event
  | [], st => (st, [])
  | u :: rest, st =>
    let step := checkEvents cfg st u.book side u.now expiry cstart
    let tail := runEngine cfg side expiry cstart rest step.1
    (tail.1, step.2 ++ tail.2)

/-- Default configuration: spinboxes at 0 (no-entry-after off, max cycles
unlimited, stop-loss delay off). -/
def defaultConfig : SignalConfig := ⟨0, 0, 0⟩

/-- A book showing ask 40 on the yes side and no yes bid:
`no = {60: 10}` so `best_ask("yes") = 100 − 60 = 40`. -/
def entryBook : OrderBook := ⟨"T", [], [(60, 10)]⟩

/-- A book showing ask 40 and bid 45 on the yes side:
`yes = {45: 5}`, `no = {60: 10}`. -/
def targetBook : OrderBook := ⟨"T", [(45, 5)], [(60, 10)]⟩

/-- A book showing ask 8 on the yes side: `no = {92: 3}`. -/
def stopBook : OrderBook := ⟨"T", [], [(92, 3)]⟩

/-- Four full entry/target cycles (dwell 3 s each), then a fifth entry and
a bid ≥ 45 print only 1 s after it (a sub-2-second fill).  Times are
microseconds into a contract with expiry at 900 s. -/
def milestoneTrace : List BookUpdate :=
  [⟨entryBook, 0⟩, ⟨targetBook, 3000000⟩,
   ⟨entryBook, 6000000⟩, ⟨targetBook, 9000000⟩,
   ⟨entryBook, 12000000⟩, ⟨targetBook, 15000000⟩,
   ⟨entryBook, 18000000⟩, ⟨targetBook, 21000000⟩,
   ⟨entryBook, 24000000⟩, ⟨targetBook, 25000000⟩]

lemma allPos_popKey {m : Book} (h : allPos m) (p : Int) : allPos (popKey m p) := by
  intro e he
  exact h e (List.mem_of_mem_filter he)

lemma allPos_setKey {m : Book} (h : allPos m) {p q : Int} (hq : 0 < q) :
    allPos (setKey m p q) := by
  intro e he
  unfold setKey at he
  by_cases hmem : m.any (fun e => decide (e.1 = p))
  · simp only [hmem, if_true, List.mem_map] at he
    obtain ⟨a, ha, hae⟩ := he
    by_cases hap : a.1 = p
    · simp only [hap, if_true] at hae
      simpa [← hae] using hq
    · simp only [hap, if_false] at hae
      exact hae ▸ h a ha
  · simp only [hmem, if_false] at he
    rcases List.mem_append.mp he with he2 | he2
    · exact h e he2
    · rw [List.mem_singleton.mp he2]
      exact hq

lemma allPos_toDict {l : List (Int × Int)} (h : ∀ e ∈ l, 0 < e.2) :
    allPos (toDict l) := by
  unfold toDict
  have general : ∀ (l : List (Int × Int)) (acc : Book), allPos acc →
      (∀ e ∈ l, 0 < e.2) →
      allPos (l.foldl (fun acc e => setKey acc e.1 e.2) acc) := by
    intro l
    induction l with
    | nil => intro acc hacc _; simpa using hacc
    | cons hd tl ih =>
      intro acc hacc hl
      simp only [List.foldl_cons]
      exact ih _ (allPos_setKey hacc (hl hd (List.mem_cons_self hd tl)))
        (fun e he => hl e (List.mem_cons_of_mem hd he))
  exact general l [] (by intro e he; simp at he) h

lemma bookPos_applyDelta {b : OrderBook} (h : bookPos b) (msg : DeltaMsg) :
    bookPos (applyDelta b msg) := by
  obtain ⟨hy, hn⟩ := h
  unfold applyDelta
  by_cases hside : msg.side = "yes"
  · simp only [hside, if_true]
    by_cases hle : getQty b.yes msg.price + msg.delta ≤ 0
    · simp only [hle, if_true]
      exact ⟨allPos_popKey hy _, hn⟩
    · simp only [hle, if_false]
      exact ⟨allPos_setKey hy (by omega), hn⟩
  · simp only [hside, if_false]
    by_cases hle : getQty b.no msg.price + msg.delta ≤ 0
    · simp only [hle, if_true]
      exact ⟨hy, allPos_popKey hn _⟩
    · simp only [hle, if_false]
      exact ⟨hy, allPos_setKey hn (by omega)⟩

lemma bookPos_foldl {msgs : List DeltaMsg} {b : OrderBook} (h : bookPos b) :
    bookPos (msgs.foldl applyDelta b) := by
  induction msgs generalizing b with
  | nil => simpa using h
  | cons hd tl ih =>
    simp only [List.foldl_cons]
    exact ih (bookPos_applyDelta h hd)

/-- C1 counterexample: a delta whose side is `"zzz"` (neither `"yes"` nor
`"no"`) is not a no-op — it inserts the level into the `no` map, because
`apply_delta` selects `self.no` for every side other than `"yes"`. -/
theorem c1_counterexample :
    (⟨"zzz", 5, 7⟩ : DeltaMsg).side ≠ "yes" ∧
    (⟨"zzz", 5, 7⟩ : DeltaMsg).side ≠ "no" ∧
    (applyDelta ⟨"T", [(30, 100)], []⟩ ⟨"zzz", 5, 7⟩).no = [(5, 7)] ∧
    (⟨"T", [(30, 100)], []⟩ : OrderBook).no = [] := by
  decide

/-- C1 (amended): a delta message whose side is not `"yes"` is applied to
the `no` map exactly as if its side were `"no"`; the `yes` map is unchanged,
but the `no` map is mutated — not a silent no-op on both maps. -/
theorem c1_unknown_side_acts_on_no_map (b : OrderBook) (msg : DeltaMsg)
    (h : msg.side ≠ "yes") :
    applyDelta b msg = applyDelta b { msg with side := "no" } ∧
    (applyDelta b msg).yes = b.yes := by
  unfold applyDelta
  constructor
  · simp [h]
  · simp only [h, if_false]
    by_cases hle : getQty b.no msg.price + msg.delta ≤ 0 <;> simp [hle]

/-- C1 amended-claim witness at the counterexample input. -/
theorem c1_unknown_side_witness :
    (⟨"zzz", 5, 7⟩ : DeltaMsg).side ≠ "yes" ∧
    (applyDelta ⟨"T", [(30, 100)], []⟩ ⟨"zzz", 5, 7⟩ =
       applyDelta ⟨"T", [(30, 100)], []⟩ { (⟨"zzz", 5, 7⟩ : DeltaMsg) with side := "no" } ∧
     (applyDelta ⟨"T", [(30, 100)], []⟩ ⟨"zzz", 5, 7⟩).yes =
       (⟨"T", [(30, 100)], []⟩ : OrderBook).yes) :=
  ⟨by decide, c1_unknown_side_acts_on_no_map ⟨"T", [(30, 100)], []⟩ ⟨"zzz", 5, 7⟩ (by decide)⟩

/-- C2: from a snapshot whose quantities are all positive, any finite
sequence of deltas with known sides leaves no price level with quantity
≤ 0 in either map: `apply_delta` removes a level whenever its new quantity
is ≤ 0 and otherwise stores the (positive) new quantity. -/
theorem c2_no_nonpositive_levels (t : String) (yesL noL : List (Int × Int))
    (msgs : List DeltaMsg)
    (hy : ∀ e ∈ yesL, 0 < e.2) (hn : ∀ e ∈ noL, 0 < e.2)
    (_hsides : ∀ m ∈ msgs, m.side = "yes" ∨ m.side = "no") :
    bookPos (msgs.foldl applyDelta (applySnapshot ⟨t, [], []⟩ yesL noL)) := by
  apply bookPos_foldl
  exact ⟨allPos_toDict hy, allPos_toDict hn⟩

/-- C2 witness: the spec's scenario snapshot followed by the delta that
empties the `yes` side. -/
theorem c2_witness :
    bookPos ([⟨"yes", 30, -100⟩].foldl applyDelta
      (applySnapshot ⟨"T", [], []⟩ [(30, 100)] [(65, 50)])) :=
  c2_no_nonpositive_levels "T" [(30, 100)] [(65, 50)] [⟨"yes", 30, -100⟩]
    (by decide) (by decide) (by decide)

/-- C3: for both sides, `best_ask` is 100 minus the maximum key of the
opposite side's map (none exactly when that map is empty), and `best_bid`
is the maximum key of the side's own map (none exactly when it is empty);
hence `best_ask(side) = 100 − best_bid(opposite side)` pointwise. -/
theorem c3_best_quotes (b : OrderBook) :
    bestAsk b "yes" = (bestBid b "no").map (fun m => 100 - m) ∧
    bestAsk b "no" = (bestBid b "yes").map (fun m => 100 - m) ∧
    bestBid b "yes" = (b.yes.map Prod.fst).max? ∧
    bestBid b "no" = (b.no.map Prod.fst).max? ∧
    (bestBid b "yes" = none ↔ b.yes = []) ∧
    (bestBid b "no" = none ↔ b.no = []) ∧
    (bestAsk b "yes" = none ↔ b.no = []) ∧
    (bestAsk b "no" = none ↔ b.yes = []) := by
  refine ⟨?_, ?_, ?_, ?_, ?_, ?_, ?_, ?_⟩ <;>
    simp [bestAsk, bestBid, List.max?_eq_none_iff, List.map_eq_nil_iff]

/-- C10: `apply_snapshot` stores the snapshot's levels verbatim, without
filtering non-positive quantities: a snapshot pair with quantity 0 is
present in the resulting map with quantity 0. -/
theorem c10_snapshot_keeps_zero_quantity :
    (applySnapshot ⟨"T", [], []⟩ [(30, 0)] []).yes.find?
      (fun e => e.1 = (30 : Int)) = some (30, 0) := by
  decide

/-- C5: the expiry is strictly after `now`, at most 15 minutes away, on a
15-minute boundary (minute a multiple of 15, seconds and microseconds
zero); and the spec's scenario — 2025-10-01 12:07:00 yields expiry
12:15:00 and contract start 12:00:00. -/
theorem c5_compute_bounds :
    (∀ now : Nat,
      now < (compute now).2 ∧
      (compute now).2 - now ≤ 15 * usecPerMin ∧
      minuteOfTime (compute now).2 % 15 = 0 ∧
      (compute now).2 % usecPerMin = 0) ∧
    (compute 1759320420000000).2 = 1759320900000000 ∧
    contractStartOf (compute 1759320420000000).2 = 1759320000000000 := by
  refine ⟨fun now => ?_, by decide, by decide⟩
  have h : (compute now).2 = computeExpiry now := rfl
  rw [h]
  simp only [computeExpiry, minuteOfTime, usecPerMin, usecPerHour]
  split_ifs with hc
  · refine ⟨?_, ?_, ?_, ?_⟩ <;> omega
  · refine ⟨?_, ?_, ?_, ?_⟩ <;> omega

/-- C9: the contract identifier produced by `_compute` is exactly the
template `KXBTC15M-{YY}{MON}{DD}{HH}{MM}-{MM}` instantiated at the
returned expiry: 2-digit year, uppercase 3-letter month, 2-digit day,
2-digit 24-hour hour, 2-digit minute, minute repeated as the trailing
segment. -/
theorem c9_ticker_template : ∀ now : Nat, (compute now).1 = specTicker (compute now).2 :=
  fun _ => rfl

/-- Once `_stopped_out` is set, `_check_events` returns immediately: no
event of any kind is emitted for the remainder of the contract. -/
lemma runEngine_stopped (cfg : SignalConfig) (side : String) (expiry cstart : Nat)
    (rest : List BookUpdate) (st : EngineState) (h : st.stoppedOut = true) :
    runEngine cfg side expiry cstart rest st = (st, []) := by
  induction rest with
  | nil => rfl
  | cons u tl ih =>
    have hstep : checkEvents cfg st u.book side u.now expiry cstart = (st, []) := by
      unfold checkEvents
      rw [h]
      simp
    simp only [runEngine, hstep, ih, List.nil_append]

/-- C4: the MILESTONE is re-emitted.  On the trace of four completed
entry/target cycles followed by a fifth entry and a sub-2-second bid ≥ 45
print, the engine emits two MILESTONE rows in one contract while the cycle
counter stays at 4 — the `_cycle_count == 4` check of `_check_events` sits
outside the sub-2-second `else` block, so a noise fill re-runs it. -/
theorem c4_second_milestone_emitted :
    ((runEngine defaultConfig "yes" 900000000 0 milestoneTrace
        initialEngineState).2.countP Event.isMilestone) = 2 ∧
    (runEngine defaultConfig "yes" 900000000 0 milestoneTrace
        initialEngineState).1.cycleCount = 4 := by
  decide

/-- C6 counterexample: with exactly 30 seconds to expiry (the claim's
"exceeds 30 seconds" is false) an ENTRY is nevertheless emitted, because
the source only blocks entries when `secs_remaining < 30`. -/
theorem c6_counterexample :
    (checkEvents defaultConfig initialEngineState entryBook "yes"
        870000000 900000000 0).2 = [Event.entry 870000000 40] ∧
    ¬ ((30 : Int) * 1000000 < (900000000 : Int) - (870000000 : Int)) := by
  decide

/-- C6 (amended): while IDLE and not stopped out, an ENTRY (recording the
trigger timestamp and entry ask) is emitted exactly when the ask is ≤ 40,
the time remaining to expiry is **at least** 30 seconds, and the
no-entry-after cutoff is off or the elapsed time since contract start is
below it. -/
theorem c6_entry_iff (cfg : SignalConfig) (st : EngineState) (book : OrderBook)
    (side : String) (now expiry cstart : Nat)
    (hstop : st.stoppedOut = false) (hidle : st.inTrigger = false) :
    (∃ a, bestAsk book side = some a ∧
      checkEvents cfg st book side now expiry cstart =
        ({ st with inTrigger := true, triggerTime := some now, entryAsk := some a },
         [Event.entry now a]))
    ↔ (∃ a, bestAsk book side = some a ∧ a ≤ 40 ∧
        30 * 1000000 ≤ (expiry : Int) - (now : Int) ∧
        (cfg.noEntryAfterMins = 0 ∨
          (now : Int) - (cstart : Int) < 60000000 * (cfg.noEntryAfterMins : Int))) := by
  unfold checkEvents
  rw [hstop, hidle]
  cases ha : bestAsk book side with
  | none =>
    simp only [Option.some.injEq]
    constructor
    · rintro ⟨a, ha2, _⟩; cases ha2
    · rintro ⟨a, ha2, _⟩; cases ha2
  | some a0 =>
    simp only [Bool.false_eq_true, if_false, Bool.not_false, if_true, Option.some.injEq]
    split_ifs with h1 h2 h3
    · constructor
      · rintro ⟨a, _, heq⟩
        exact absurd (congrArg Prod.snd heq) (by simp)
      · rintro ⟨a, _, _, hrem, _⟩
        omega
    · constructor
      · rintro ⟨a, _, heq⟩
        exact absurd (congrArg Prod.snd heq) (by simp)
      · rintro ⟨a, haa, _, _, hnoe⟩
        obtain ⟨hpos, hcut⟩ := h2
        rcases hnoe with hz | hlt <;> omega
    · constructor
      · rintro ⟨a, haa, _⟩
        refine ⟨a0, rfl, h3, by omega, ?_⟩
        rcases Nat.eq_zero_or_pos cfg.noEntryAfterMins with hz | hpos
        · exact Or.inl hz
        · right
          by_contra hcon
          exact h2 ⟨hpos, by omega⟩
      · rintro ⟨a, haa, _⟩
        exact ⟨a0, rfl, rfl⟩
    · constructor
      · rintro ⟨a, haa, heq⟩
        exact absurd (congrArg Prod.snd heq) (by simp)
      · rintro ⟨a, haa, hle, _, _⟩
        subst haa
        exact absurd hle h3

/-- C6 amended-claim witness: the default configuration, a fresh engine,
ask 40 at the start of a 15-minute contract. -/
theorem c6_entry_witness :
    initialEngineState.stoppedOut = false ∧ initialEngineState.inTrigger = false ∧
    ((∃ a, bestAsk entryBook "yes" = some a ∧
      checkEvents defaultConfig initialEngineState entryBook "yes" 0 900000000 0 =
        ({ initialEngineState with
             inTrigger := true, triggerTime := some 0, entryAsk := some a },
         [Event.entry 0 a]))
    ↔ (∃ a, bestAsk entryBook "yes" = some a ∧ a ≤ 40 ∧
        30 * 1000000 ≤ ((900000000 : Nat) : Int) - ((0 : Nat) : Int) ∧
        (defaultConfig.noEntryAfterMins = 0 ∨
          ((0 : Nat) : Int) - ((0 : Nat) : Int) <
            60000000 * (defaultConfig.noEntryAfterMins : Int)))) :=
  ⟨rfl, rfl,
   c6_entry_iff defaultConfig initialEngineState entryBook "yes" 0 900000000 0 rfl rfl⟩

/-- C7: in a triggered state, an ask ≤ 10 with the stop armed (elapsed
time since trigger at least the configured delay) emits exactly one
STOP_LOSS, increments the stop counter, sets the stopped-out flag, and no
event of any kind is emitted by any later book update of the contract. -/
theorem c7_stop_loss_terminal (cfg : SignalConfig) (st : EngineState) (book : OrderBook)
    (side : String) (now expiry cstart : Nat) (a : Int) (tt : Nat)
    (hstop : st.stoppedOut = false) (htrig : st.inTrigger = true)
    (htt : st.triggerTime = some tt)
    (ha : bestAsk book side = some a) (hle : a ≤ 10)
    (harm : 1000000 * (cfg.slDelaySecs : Int) ≤ (now : Int) - (tt : Int)) :
    checkEvents cfg st book side now expiry cstart =
      ({ st with stopLossCount := st.stopLossCount + 1, inTrigger := false,
                 triggerTime := none, stoppedOut := true },
       [Event.stopLoss now a (pnlOf a)]) ∧
    ∀ rest : List BookUpdate,
      (runEngine cfg side expiry cstart rest
        (checkEvents cfg st book side now expiry cstart).1).2 = [] := by
  have hstep : checkEvents cfg st book side now expiry cstart =
      ({ st with stopLossCount := st.stopLossCount + 1, inTrigger := false,
                 triggerTime := none, stoppedOut := true },
       [Event.stopLoss now a (pnlOf a)]) := by
    unfold checkEvents
    rw [hstop, htrig, ha, htt]
    simp only [Bool.false_eq_true, if_false, Bool.not_true]
    rw [if_pos hle, if_neg (by rintro ⟨hpos, hlt⟩; omega)]
  refine ⟨hstep, fun rest => ?_⟩
  rw [hstep, runEngine_stopped cfg side expiry cstart rest _ rfl]

/-- C7 witness: default configuration (stop delay 0), entry at time 0,
ask 8 five seconds later. -/
theorem c7_stop_loss_witness :
    checkEvents defaultConfig ⟨true, some 0, some 40, 0, 0, false⟩ stopBook "yes"
        5000000 900000000 0 =
      (⟨false, none, some 40, 0, 1, true⟩,
       [Event.stopLoss 5000000 8 (pnlOf 8)]) ∧
    ∀ rest : List BookUpdate,
      (runEngine defaultConfig "yes" 900000000 0 rest
        (checkEvents defaultConfig ⟨true, some 0, some 40, 0, 0, false⟩ stopBook "yes"
          5000000 900000000 0).1).2 = [] :=
  c7_stop_loss_terminal defaultConfig ⟨true, some 0, some 40, 0, 0, false⟩ stopBook
    "yes" 5000000 900000000 0 8 0 rfl rfl rfl (by decide) (by decide) (by decide)

/-- C8: every TARGET event carries the realized-P&L estimate
`10 × (exitPrice − 40) / 40` with the fixed 40¢ cost basis (independent of
the recorded entry ask), its exit price is the bid (≥ 45) at which it
fired, its dwell is at least 2 seconds, and the step that emitted it
incremented the cycle counter by exactly one. -/
theorem c8_target_pnl (cfg : SignalConfig) (st : EngineState) (book : OrderBook)
    (side : String) (now expiry cstart : Nat) (a b : Int) (tt : Nat)
    (hstop : st.stoppedOut = false) (htrig : st.inTrigger = true)
    (htt : st.triggerTime = some tt)
    (ha : bestAsk book side = some a) (hnostop : ¬ a ≤ 10)
    (hb : bestBid book side = some b) (hb45 : 45 ≤ b)
    (hdwell : 2 * 1000000 ≤ (now : Int) - (tt : Int)) :
    (checkEvents cfg st book side now expiry cstart).1.cycleCount = st.cycleCount + 1 ∧
    Event.target (st.cycleCount + 1) now b ((now : Int) - (tt : Int))
        (10 * ((b : ℚ) - 40) / 40) ∈
      (checkEvents cfg st book side now expiry cstart).2 := by
  have hstep : checkEvents cfg st book side now expiry cstart =
      (if cfg.maxCycles > 0 ∧ cfg.maxCycles ≤ st.cycleCount + 1 then
        { st with cycleCount := st.cycleCount + 1, inTrigger := false,
                  triggerTime := none, stoppedOut := true }
       else
        { st with cycleCount := st.cycleCount + 1, inTrigger := false,
                  triggerTime := none },
       if st.cycleCount + 1 = 4 then
         [Event.target (st.cycleCount + 1) now b ((now : Int) - (tt : Int)) (pnlOf b),
          Event.milestone now]
       else
         [Event.target (st.cycleCount + 1) now b ((now : Int) - (tt : Int)) (pnlOf b)]) := by
    unfold checkEvents
    rw [hstop, htrig, ha, htt, hb]
    simp only [Bool.false_eq_true, if_false, Bool.not_true]
    rw [if_neg hnostop, if_pos hb45,
        if_neg (show ¬ ((now : Int) - (tt : Int) < 2 * 1000000) by omega)]
    dsimp only
    split_ifs <;> rfl
  rw [hstep]
  constructor
  · split_ifs <;> rfl
  · have hpnl : pnlOf b = 10 * ((b : ℚ) - 40) / 40 := rfl
    split_ifs <;> simp [hpnl]

/-- C8 witness: trigger at time 0, bid 45 three seconds later under the
default configuration — the TARGET carries P&L `10 × (45 − 40) / 40`. -/
theorem c8_target_witness :
    (checkEvents defaultConfig ⟨true, some 0, some 38, 0, 0, false⟩ targetBook "yes"
        3000000 900000000 0).1.cycleCount = 0 + 1 ∧
    Event.target (0 + 1) 3000000 45 (((3000000 : Nat) : Int) - ((0 : Nat) : Int))
        (10 * ((45 : ℚ) - 40) / 40) ∈
      (checkEvents defaultConfig ⟨true, some 0, some 38, 0, 0, false⟩ targetBook "yes"
        3000000 900000000 0).2 :=
  c8_target_pnl defaultConfig ⟨true, some 0, some 38, 0, 0, false⟩ targetBook "yes"
    3000000 900000000 0 40 45 0 rfl rfl rfl (by decide) (by decide) (by decide)
    (by decide) (by decide)

end KalshiBot
